import Mathlib

/-!
# Verification of the Amharic transcription workflow controller

Shallow embedding of the `TranscriberUI` React component (the Transcription
Workflow Controller), the Gemini engine wrapper (`GeminiTranscriptionService`)
and the Supabase persistence function (`saveTranscription`).

Modelling conventions:
* Each `useState` hook of the component becomes a field of `ComponentState`;
  the `mediaRecorderRef`/`audioChunksRef` refs become fields as well.
* Event handlers become pure functions `ComponentState → ComponentState`
  (paired with a list of external-call `Effect`s where the handler may reach
  the Transcription Engine or the Persistence Store).
* Asynchronous handlers are modelled as atomic transitions: the outcome of
  every awaited external call (microphone acquisition, provider response,
  store insert, authenticated user) is passed in as a parameter of
  `Except`/`Option` type.  The specification stipulates at most one
  outstanding call per kind, so the atomic view is the intended semantics.
* The user-visible event layer (`step`) additionally carries the availability
  guards that the component's JSX imposes: a handler can only fire through a
  control that is actually rendered and enabled.  Each guard is cited to the
  source line it comes from.
-/

namespace AmharicFirst

/-- The `TranscriptionStatus` enumeration of the source (`types.ts`). -/
inductive TranscriptionStatus
  | IDLE
  | RECORDING
  | RECORDED
  | TRANSCRIBING
  | TRANSLATING
  | COMPLETED
  | ERROR
  deriving DecidableEq

/-- A binary blob: payload bytes plus a MIME-type tag (the `Blob` objects the
component stores in `pendingBlob` and `result.audioBlob`).  `size` in the
source is the byte length, i.e. `data.length` here. -/
structure Blob where
  data : List Nat
  type : String
  deriving DecidableEq

/-- The `TranscriptionResult` interface of `types.ts`: `translatedText` is an
optional field, `timestamp` a creation time (epoch milliseconds), `audioBlob`
the audio the transcript came from. -/
structure TranscriptionResult where
  text : String
  translatedText : Option String
  timestamp : Nat
  audioBlob : Option Blob
  deriving DecidableEq

/-- The controller state: one field per `useState` hook of `TranscriberUI`,
plus the `mediaRecorderRef` (`mediaRecorder`, tracked as present/absent) and
`audioChunksRef` (`audioChunks`) refs.  `stream` is tracked as
present/absent. -/
structure ComponentState where
  status : TranscriptionStatus
  result : Option TranscriptionResult
  error : Option String
  stream : Bool
  pendingBlob : Option Blob
  isSaving : Bool
  saveSuccess : Bool
  mediaRecorder : Bool
  audioChunks : List Blob
  deriving DecidableEq

/-- The initial state of the component (the `useState` initialisers). -/
def initialState : ComponentState :=
  { status := .IDLE
    result := none
    error := none
    stream := false
    pendingBlob := none
    isSaving := false
    saveSuccess := false
    mediaRecorder := false
    audioChunks := [] }

/-- External calls a handler can make; recorded so that theorems can state
that no engine or store call happened. -/
inductive Effect
  | engineTranscribe (base64 : String) (mimeType : String)
  | engineTranslate (text : String)
  | storeSave (userId : String) (amharic : String) (english : Option String)
  deriving DecidableEq

/-- `blobToBase64` of the component: a deterministic text encoding of the
blob's bytes (the claims never inspect the encoding itself, only that the
engine is called with it). -/
def blobToBase64 (b : Blob) : String :=
  String.intercalate "," (b.data.map toString)

/-- JavaScript's `x || sentinel` on `response.text`: `none` (undefined) and
the empty string are falsy and replaced by the sentinel. -/
def textOrSentinel (t : Option String) (sentinel : String) : String :=
  match t with
  | none => sentinel
  | some s => if s = "" then sentinel else s

/-- `GeminiTranscriptionService.transcribeAmharic` (geminiService, lines
15-44): the provider outcome is either an error or a `response.text`
(possibly absent or empty).  On provider error the wrapper throws a fixed
message; on success it returns `response.text || "No transcription
available."`. -/
def transcribeAmharic (provider : Except Unit (Option String)) : Except String String :=
  match provider with
  | Except.error _ =>
      Except.error "Failed to transcribe audio. Please check your connection or API key."
  | Except.ok t => Except.ok (textOrSentinel t "No transcription available.")

/-- `GeminiTranscriptionService.translateToEnglish` (geminiService, lines
49-70): same shape, independent error message and sentinel. -/
def translateToEnglish (provider : Except Unit (Option String)) : Except String String :=
  match provider with
  | Except.error _ => Except.error "Failed to translate text."
  | Except.ok t => Except.ok (textOrSentinel t "Translation failed.")

/-- `saveTranscription` of the Supabase service (part_002 lines 478-496):
throws when no authenticated user is present, otherwise performs the insert
(recorded as a `storeSave` effect) and propagates a store error.  `user` is
the outcome of `getCurrentUser()` (the user id when signed in); `store` the
outcome of the insert.  The inserted `created_at` timestamp is not modelled
in the effect. -/
def saveTranscription (user : Option String) (store : Except String Unit)
    (amharic : String) (english : Option String) : Except String Unit × List Effect :=
  match user with
  | none => (Except.error "User must be logged in to save data.", [])
  | some uid => (store, [Effect.storeSave uid amharic english])

/-- `startRecording` (part_002 lines 20-52).  Before the `try`, the handler
clears `error`, `result`, `pendingBlob`, `saveSuccess` and the chunk buffer.
On microphone success it stores the stream, creates the recorder and moves to
`RECORDING`; on failure (`getUserMedia` rejected) it sets the device error
message and returns the status to `IDLE` (stream and recorder untouched,
since the failure happens before they are assigned). -/
def startRecording (mic : Except Unit Unit) (s : ComponentState) : ComponentState :=
  let s1 := { s with error := none, result := none, pendingBlob := none,
                     saveSuccess := false, audioChunks := [] }
  match mic with
  | Except.ok _ => { s1 with stream := true, mediaRecorder := true, status := .RECORDING }
  | Except.error _ =>
      { s1 with error := some "Microphone access denied or not available.", status := .IDLE }

/-- The recorder's `ondataavailable` callback (part_002 lines 33-37): pushes
the chunk when its size is positive. -/
def dataAvailable (d : Blob) (s : ComponentState) : ComponentState :=
  if d.data.length > 0 then { s with audioChunks := s.audioChunks ++ [d] } else s

/-- `new Blob(audioChunksRef.current, { type: 'audio/webm' })` in
`recorder.onstop` (part_002 line 40). -/
def concatChunks (chunks : List Blob) : Blob :=
  { data := (chunks.map Blob.data).flatten, type := "audio/webm" }

/-- `stopRecording` (part_002 lines 54-60) combined with the recorder's
`onstop` callback (lines 39-43), as one atomic transition: guard
`mediaRecorderRef.current && status === RECORDING`; effect: finalize the
chunk buffer into the pending blob, move to `RECORDED`, stop and drop the
stream. -/
def stopRecording (s : ComponentState) : ComponentState :=
  if s.mediaRecorder = true ∧ s.status = .RECORDING then
    { s with pendingBlob := some (concatChunks s.audioChunks),
             status := .RECORDED, stream := false }
  else s

/-- `handleTranscribeNow` (part_002 lines 74-91): no-op without a pending
blob; otherwise encodes it, calls the engine (effect recorded), and on
success builds the result (timestamp `now`, audio attached) and moves to
`COMPLETED`; on engine failure sets `err.message || fallback` as the error
and moves to `ERROR`.  The error path does not touch `result` or
`pendingBlob`. -/
def handleTranscribeNow (provider : Except Unit (Option String)) (now : Nat)
    (s : ComponentState) : ComponentState × List Effect :=
  match s.pendingBlob with
  | none => (s, [])
  | some blob =>
    let effs := [Effect.engineTranscribe (blobToBase64 blob) blob.type]
    match transcribeAmharic provider with
    | Except.ok text =>
        ({ s with status := .COMPLETED,
                  result := some { text := text, translatedText := none,
                                   timestamp := now, audioBlob := some blob } }, effs)
    | Except.error m =>
        ({ s with status := .ERROR,
                  error := some (if m = "" then "An error occurred during transcription." else m) },
         effs)

/-- `handleTranslateNow` (part_002 lines 93-105): no-op without a result;
otherwise calls the engine on `result.text` (effect recorded); on success
stores the translation and moves to `COMPLETED`; on failure sets
`err.message || fallback` as the error and still moves to `COMPLETED`,
leaving the result untouched. -/
def handleTranslateNow (provider : Except Unit (Option String))
    (s : ComponentState) : ComponentState × List Effect :=
  match s.result with
  | none => (s, [])
  | some r =>
    let effs := [Effect.engineTranslate r.text]
    match translateToEnglish provider with
    | Except.ok tt =>
        ({ s with result := some { r with translatedText := some tt },
                  status := .COMPLETED }, effs)
    | Except.error m =>
        ({ s with error := some (if m = "" then "An error occurred during translation." else m),
                  status := .COMPLETED }, effs)

/-- `handleSaveToCloud` (part_002 lines 107-120): no-op without a result;
otherwise `isSaving` is raised for the duration of the call and lowered in
the `finally`, so it ends `false`; `saveSuccess` is cleared at the start and
set on success (its 3-second auto-reset timer is a later, unmodelled timer
event); a failure surfaces `"Failed to save to Supabase: " + err.message`.
`status`, `pendingBlob` and `result` are never written. -/
def handleSaveToCloud (user : Option String) (store : Except String Unit)
    (s : ComponentState) : ComponentState × List Effect :=
  match s.result with
  | none => (s, [])
  | some r =>
    match saveTranscription user store r.text r.translatedText with
    | (Except.ok _, effs) =>
        ({ s with isSaving := false, saveSuccess := true }, effs)
    | (Except.error m, effs) =>
        ({ s with isSaving := false, saveSuccess := false,
                  error := some ("Failed to save to Supabase: " ++ m) }, effs)

/-- The field argument of `handleTextChange`. -/
inductive TextField
  | text
  | translatedText
  deriving DecidableEq

/-- `handleTextChange` (part_002 lines 122-124): `setResult(prev => prev ?
{ ...prev, [field]: value } : null)` — when a result exists the named field
is overwritten (note: the spread-with-override sets `translatedText` even
when it was previously absent). -/
def handleTextChange (field : TextField) (value : String) (s : ComponentState) : ComponentState :=
  match s.result with
  | none => s
  | some r =>
    match field with
    | .text => { s with result := some { r with text := value } }
    | .translatedText => { s with result := some { r with translatedText := some value } }

/-- `handleFileChange` (part_002 lines 126-138): no-op without a file;
rejects a non-`audio/*` MIME type with an error message and no other change;
otherwise clears the error, stores the file as the pending blob and moves to
`RECORDED`. -/
def handleFileChange (file : Option Blob) (s : ComponentState) : ComponentState :=
  match file with
  | none => s
  | some f =>
    if f.type.startsWith "audio/" then
      { s with error := none, pendingBlob := some f, status := .RECORDED }
    else
      { s with error := some "Please select a valid audio file." }

/-- `reset` (part_002 lines 167-174): status to `IDLE`, result, pending blob
and error discarded, `saveSuccess` cleared (the file-input DOM value reset is
not part of the modelled state). -/
def reset (s : ComponentState) : ComponentState :=
  { s with status := .IDLE, result := none, pendingBlob := none,
           error := none, saveSuccess := false }

/-- The text-export payload of `downloadTranscription` (part_002 lines
140-154): the transcript under the `Original Amharic:` header and, when
`result.translatedText` is truthy (JS `if (result.translatedText)`), the
translation under the `English Translation:` header. -/
def transcriptionContent (r : TranscriptionResult) : String :=
  let base := "Original Amharic:\n" ++ r.text
  match r.translatedText with
  | none => base
  | some tt => if tt = "" then base else base ++ "\n\nEnglish Translation:\n" ++ tt

/-- The text-export filename of `downloadTranscription` (part_002 line 151),
with `now` the `new Date().getTime()` epoch milliseconds. -/
def transcriptionFilename (now : Nat) : String :=
  "amharic-transcription-" ++ toString now ++ ".txt"

/-- `blob.type.split('/')[1] || 'webm'` of `downloadAudio` (part_002 line
162): the second `/`-separated component of the MIME type, replaced by the
`webm` fallback when it is missing or empty. -/
def audioExtension (mime : String) : String :=
  match (mime.splitOn "/").get? 1 with
  | none => "webm"
  | some ext => if ext = "" then "webm" else ext

/-- The audio-export filename of `downloadAudio` (part_002 line 162). -/
def audioFilename (now : Nat) (mime : String) : String :=
  "amharic-audio-" ++ toString now ++ "." ++ audioExtension mime

/-- `result?.audioBlob || pendingBlob` of `downloadAudio` (part_002 line
157): which blob is exported. -/
def downloadAudioBlob (s : ComponentState) : Option Blob :=
  match s.result with
  | some r =>
    match r.audioBlob with
    | some b => some b
    | none => s.pendingBlob
  | none => s.pendingBlob

/-- JavaScript truthiness of an optional string: truthy iff present and
non-empty (used by the JSX render guards). -/
def strOptTruthy : Option String → Bool
  | none => false
  | some t => t != ""

/-- The user-visible events of the component.  Parameters carry the outcome
of the external calls the corresponding handler awaits. -/
inductive Event
  | startCapture (mic : Except Unit Unit)
  | chunk (data : Blob)
  | stopCapture
  | uploadFile (file : Option Blob)
  | transcribe (provider : Except Unit (Option String)) (now : Nat)
  | translate (provider : Except Unit (Option String))
  | save (user : Option String) (store : Except String Unit)
  | editText (value : String)
  | editTranslation (value : String)
  | clickReset

/-- One user-visible event step.  Every branch pairs the handler the event is
wired to with the availability guard its control has in the JSX:
* record / upload controls render only while `status === IDLE`
  (part_002 line 221);
* the stop button renders only while `status === RECORDING` (line 254) and
  `stopRecording` itself re-checks the recorder ref and the status;
* the transcribe button renders only while `status === RECORDED` (line 267);
* the translate button renders only when a result exists whose
  `translatedText` is falsy (line 345) and is disabled while
  `status === TRANSLATING` (line 369);
* the save button renders only when a result exists (line 307) and is
  disabled while `isSaving || status === TRANSLATING` (line 388);
* the transcript textarea renders only when a result exists (line 307); the
  translation textarea only when `result.translatedText` is truthy
  (line 345);
* the reset button renders only while `status !== IDLE` (line 183);
* `ondataavailable` chunks arrive only from a live recorder. -/
def step (s : ComponentState) (e : Event) : ComponentState × List Effect :=
  match e with
  | .startCapture mic =>
      if s.status = .IDLE then (startRecording mic s, []) else (s, [])
  | .chunk d =>
      if s.mediaRecorder = true ∧ s.status = .RECORDING then (dataAvailable d s, []) else (s, [])
  | .stopCapture => (stopRecording s, [])
  | .uploadFile f =>
      if s.status = .IDLE then (handleFileChange f s, []) else (s, [])
  | .transcribe provider now =>
      if s.status = .RECORDED then handleTranscribeNow provider now s else (s, [])
  | .translate provider =>
      match s.result with
      | none => (s, [])
      | some r =>
        if strOptTruthy r.translatedText = false ∧ s.status ≠ .TRANSLATING then
          handleTranslateNow provider s
        else (s, [])
  | .save user store =>
      if s.result.isSome = true ∧ s.isSaving = false ∧ s.status ≠ .TRANSLATING then
        handleSaveToCloud user store s
      else (s, [])
  | .editText v =>
      match s.result with
      | none => (s, [])
      | some _ => (handleTextChange .text v s, [])
  | .editTranslation v =>
      match s.result with
      | none => (s, [])
      | some r =>
        if strOptTruthy r.translatedText = true then (handleTextChange .translatedText v s, [])
        else (s, [])
  | .clickReset =>
      if s.status ≠ .IDLE then (reset s, []) else (s, [])

/-- The states the component can actually be in: the initial state and
everything an event sequence can produce from it. -/
inductive Reachable : ComponentState → Prop
  | init : Reachable initialState
  | next (s : ComponentState) (e : Event) : Reachable s → Reachable (step s e).1

/-- The inductive invariant: `RECORDED` states hold a pending blob and no
result; `IDLE` and `RECORDING` states hold no result. -/
def Inv (s : ComponentState) : Prop :=
  (s.status = .RECORDED → s.pendingBlob.isSome = true ∧ s.result = none) ∧
  (s.status = .IDLE → s.result = none) ∧
  (s.status = .RECORDING → s.result = none)

/-- Modelled from the spec: the text-export payload as the claim words it —
the transcript under the first header "followed, when translatedText is set,
by the translation under a second fixed header" (set = non-null). -/
def transcriptionContentClaimed (r : TranscriptionResult) : String :=
  "Original Amharic:\n" ++ r.text ++
    (match r.translatedText with
     | none => ""
     | some tt => "\n\nEnglish Translation:\n" ++ tt)

/-- Modelled from the spec, amended: the translation section appears when
`translatedText` is set *and non-empty*. -/
def transcriptionContentAmended (r : TranscriptionResult) : String :=
  "Original Amharic:\n" ++ r.text ++
    (match r.translatedText with
     | none => ""
     | some tt => if tt = "" then "" else "\n\nEnglish Translation:\n" ++ tt)

/-- Modelled from the spec: the MIME subtype of a MIME-type tag, absent when
there is no (non-empty) second `/`-separated component. -/
def mimeSubtypeSpec (mime : String) : Option String :=
  match (mime.splitOn "/").get? 1 with
  | none => none
  | some ext => if ext = "" then none else some ext

/-- Modelled from the spec: `<ext-from-mime|fallback>` — the extension
derived from the MIME subtype, the fixed fallback `webm` when absent. -/
def audioExtensionSpec (mime : String) : String :=
  match mimeSubtypeSpec mime with
  | none => "webm"
  | some ext => ext

/-- A sample uploaded audio file. -/
def wavBlob : Blob := { data := [1, 2, 3], type := "audio/wav" }

/-- A sample transcription result with no translation yet. -/
def resultSample : TranscriptionResult :=
  { text := "selam", translatedText := none, timestamp := 0, audioBlob := none }

/-- A sample post-transcription controller state. -/
def completedState : ComponentState :=
  { initialState with status := .COMPLETED, result := some resultSample }

/-- A sample controller state with a save in flight. -/
def savingState : ComponentState :=
  { completedState with isSaving := true }

/-- A sample result whose translation was edited down to the empty string:
`translatedText` is set but empty. -/
def emptyTranslationResult : TranscriptionResult :=
  { text := "selam", translatedText := some "", timestamp := 0, audioBlob := none }

/-- The invariant only reads `status`, `pendingBlob` and `result`. -/
theorem inv_of_eq (s t : ComponentState) (hst : t.status = s.status)
    (hp : t.pendingBlob = s.pendingBlob) (hr : t.result = s.result)
    (h : Inv s) : Inv t := by
  unfold Inv at h ⊢
  rw [hst, hp, hr]
  exact h

/-- `handleSaveToCloud` never writes `status`, `pendingBlob` or `result`. -/
theorem save_frame_fields (user : Option String) (store : Except String Unit)
    (s : ComponentState) :
    (handleSaveToCloud user store s).1.status = s.status ∧
    (handleSaveToCloud user store s).1.pendingBlob = s.pendingBlob ∧
    (handleSaveToCloud user store s).1.result = s.result := by
  cases hres : s.result <;> cases user <;> cases store <;>
    simp [handleSaveToCloud, saveTranscription, hres]

/-- Every event step preserves the invariant. -/
theorem inv_step (s : ComponentState) (e : Event) (h : Inv s) : Inv (step s e).1 := by
  obtain ⟨h1, h2, h3⟩ := h
  cases e with
  | startCapture mic =>
    by_cases hi : s.status = .IDLE
    · cases mic with
      | ok u => simp [step, hi, startRecording, Inv]
      | error u => simp [step, hi, startRecording, Inv]
    · simpa [step, hi] using ⟨h1, h2, h3⟩
  | chunk d =>
    by_cases hg : s.mediaRecorder = true ∧ s.status = .RECORDING
    · simp only [step, if_pos hg]
      unfold dataAvailable
      split
      · exact inv_of_eq s _ rfl rfl rfl ⟨h1, h2, h3⟩
      · exact ⟨h1, h2, h3⟩
    · simpa [step, hg] using ⟨h1, h2, h3⟩
  | stopCapture =>
    by_cases hg : s.mediaRecorder = true ∧ s.status = .RECORDING
    · simp only [step]
      simp only [stopRecording, if_pos hg]
      refine ⟨fun _ => ⟨rfl, h3 hg.2⟩, fun hc => ?_, fun hc => ?_⟩ <;> simp at hc
    · simp only [step]
      simp only [stopRecording, if_neg hg]
      exact ⟨h1, h2, h3⟩
  | uploadFile f =>
    by_cases hi : s.status = .IDLE
    · have hres : s.result = none := h2 hi
      cases f with
      | none => simpa [step, hi, handleFileChange] using ⟨h1, h2, h3⟩
      | some fb =>
        by_cases ha : fb.type.startsWith "audio/" = true
        · simp [step, hi, handleFileChange, ha, Inv, hres]
        · simp [step, hi, handleFileChange, ha, Inv, hres]
    · simpa [step, hi] using ⟨h1, h2, h3⟩
  | transcribe provider now =>
    by_cases hr : s.status = .RECORDED
    · obtain ⟨hps, hres⟩ := h1 hr
      obtain ⟨b, hb⟩ := Option.isSome_iff_exists.mp hps
      cases htp : transcribeAmharic provider with
      | ok t => simp [step, hr, handleTranscribeNow, hb, htp, Inv]
      | error m => simp [step, hr, handleTranscribeNow, hb, htp, Inv]
    · simpa [step, hr] using ⟨h1, h2, h3⟩
  | translate provider =>
    cases hres : s.result with
    | none => simpa [step, hres] using ⟨h1, h2, h3⟩
    | some r =>
      by_cases hg : strOptTruthy r.translatedText = false ∧ s.status ≠ .TRANSLATING
      · cases htr : translateToEnglish provider with
        | ok tt => simp [step, hres, hg, handleTranslateNow, htr, Inv]
        | error m => simp [step, hres, hg, handleTranslateNow, htr, Inv]
      · simp only [step, hres, if_neg hg]
        exact ⟨h1, h2, h3⟩
  | save user store =>
    by_cases hg : s.result.isSome = true ∧ s.isSaving = false ∧ s.status ≠ .TRANSLATING
    · simp only [step, if_pos hg]
      obtain ⟨ha, hb, hc⟩ := save_frame_fields user store s
      exact inv_of_eq s _ ha hb hc ⟨h1, h2, h3⟩
    · simp only [step, if_neg hg]
      exact ⟨h1, h2, h3⟩
  | editText v =>
    cases hres : s.result with
    | none => simpa [step, hres] using ⟨h1, h2, h3⟩
    | some r =>
      simp only [step, hres, handleTextChange]
      refine ⟨fun hst => ?_, fun hst => ?_, fun hst => ?_⟩
      · rw [(h1 hst).2] at hres; exact Option.noConfusion hres
      · rw [h2 hst] at hres; exact Option.noConfusion hres
      · rw [h3 hst] at hres; exact Option.noConfusion hres
  | editTranslation v =>
    cases hres : s.result with
    | none => simpa [step, hres] using ⟨h1, h2, h3⟩
    | some r =>
      by_cases ht : strOptTruthy r.translatedText = true
      · simp only [step, hres, if_pos ht, handleTextChange]
        refine ⟨fun hst => ?_, fun hst => ?_, fun hst => ?_⟩
        · rw [(h1 hst).2] at hres; exact Option.noConfusion hres
        · rw [h2 hst] at hres; exact Option.noConfusion hres
        · rw [h3 hst] at hres; exact Option.noConfusion hres
      · simp only [step, hres, if_neg ht]
        exact ⟨h1, h2, h3⟩
  | clickReset =>
    by_cases hne : s.status ≠ .IDLE
    · simp [step, hne, reset, Inv]
    · simpa [step, hne] using ⟨h1, h2, h3⟩

/-- The invariant holds in every reachable state. -/
theorem inv_reachable (s : ComponentState) (h : Reachable s) : Inv s := by
  induction h with
  | init => exact ⟨fun hc => by simp [initialState] at hc, fun _ => rfl, fun hc => by simp [initialState] at hc⟩
  | next t e ht ih => exact inv_step t e ih

/-- Claim C1: when the workflow is `COMPLETED` with a result and a translate
invocation fails (the engine call throws), the result is unchanged — in
particular its `text` and its `translatedText` fields — the status stays
`COMPLETED` (not `ERROR`), and the error message field is set. -/
theorem translate_failure_preserves_transcript (s : ComponentState)
    (r : TranscriptionResult) (_hst : s.status = .COMPLETED) (hr : s.result = some r) :
    (handleTranslateNow (Except.error ()) s).1.result = some r ∧
    (handleTranslateNow (Except.error ()) s).1.status = .COMPLETED ∧
    (handleTranslateNow (Except.error ()) s).1.error = some "Failed to translate text." ∧
    ((handleTranslateNow (Except.error ()) s).1.result.bind (fun x => x.translatedText)) =
      r.translatedText := by
  simp [handleTranslateNow, translateToEnglish, hr]

/-- Witness for C1 at a concrete completed state. -/
theorem translate_failure_preserves_transcript_witness :
    (handleTranslateNow (Except.error ()) completedState).1.result = some resultSample ∧
    (handleTranslateNow (Except.error ()) completedState).1.status = .COMPLETED ∧
    (handleTranslateNow (Except.error ()) completedState).1.error =
      some "Failed to translate text." ∧
    ((handleTranslateNow (Except.error ()) completedState).1.result.bind
      (fun x => x.translatedText)) = none := by
  have h := translate_failure_preserves_transcript completedState resultSample rfl rfl
  exact ⟨h.1, h.2.1, h.2.2.1, h.2.2.2.trans rfl⟩

/-- Claim C2: `reset` from any state yields `IDLE` with no pending audio, no
result and no error. -/
theorem reset_clears_workflow (s : ComponentState) :
    (reset s).status = .IDLE ∧ (reset s).pendingBlob = none ∧
    (reset s).result = none ∧ (reset s).error = none := by
  simp [reset]

/-- Claim C3: `handleSaveToCloud` with a result present never changes the
status, the pending audio or the result, whatever the outcome of the
persistence call; when no session is present the save fails and surfaces the
unauthenticated error message (so a `COMPLETED` status stays `COMPLETED`). -/
theorem save_preserves_workflow_state (user : Option String)
    (store : Except String Unit) (s : ComponentState) (r : TranscriptionResult)
    (hr : s.result = some r) :
    (handleSaveToCloud user store s).1.status = s.status ∧
    (handleSaveToCloud user store s).1.pendingBlob = s.pendingBlob ∧
    (handleSaveToCloud user store s).1.result = s.result ∧
    (user = none →
      (handleSaveToCloud user store s).1.error =
        some "Failed to save to Supabase: User must be logged in to save data.") := by
  refine ⟨(save_frame_fields user store s).1, (save_frame_fields user store s).2.1,
    (save_frame_fields user store s).2.2, fun hu => ?_⟩
  subst hu
  simp [handleSaveToCloud, saveTranscription, hr]

/-- Witness for C3: an unauthenticated save from a concrete completed
state. -/
theorem save_preserves_workflow_state_witness :
    (handleSaveToCloud none (Except.ok ()) completedState).1.status = .COMPLETED ∧
    (handleSaveToCloud none (Except.ok ()) completedState).1.result = some resultSample ∧
    (handleSaveToCloud none (Except.ok ()) completedState).1.error =
      some "Failed to save to Supabase: User must be logged in to save data." := by
  have h := save_preserves_workflow_state none (Except.ok ()) completedState resultSample rfl
  exact ⟨h.1.trans rfl, h.2.2.1.trans rfl, h.2.2.2 rfl⟩

/-- Claim C4: while a save is in flight (`isSaving` set, which disables the
save control), a second save invocation is ignored: no store call and no
state change. -/
theorem duplicate_save_ignored_while_saving (s : ComponentState)
    (user : Option String) (store : Except String Unit) (h : s.isSaving = true) :
    step s (Event.save user store) = (s, []) := by
  simp [step, h]

/-- Witness for C4 at a concrete in-flight state. -/
theorem duplicate_save_ignored_while_saving_witness :
    step savingState (Event.save (some "uid") (Except.ok ())) = (savingState, []) :=
  duplicate_save_ignored_while_saving savingState (some "uid") (Except.ok ()) rfl

/-- Claim C5: when the result's `translatedText` is unset (no translation has
occurred, so the translation textarea is not rendered), the edit-translation
event leaves the state unchanged and the field unset. -/
theorem edit_translation_unset_noop (s : ComponentState) (r : TranscriptionResult)
    (v : String) (hr : s.result = some r) (ht : r.translatedText = none) :
    (step s (Event.editTranslation v)).1 = s ∧
    ((step s (Event.editTranslation v)).1.result.bind (fun x => x.translatedText)) = none := by
  have hf : strOptTruthy r.translatedText = false := by rw [ht]; rfl
  have h0 : (step s (Event.editTranslation v)).1 = s := by simp [step, hr, hf]
  exact ⟨h0, by rw [h0, hr]; simpa using ht⟩

/-- Witness for C5 at a concrete completed state without a translation. -/
theorem edit_translation_unset_noop_witness :
    (step completedState (Event.editTranslation "hello")).1 = completedState ∧
    ((step completedState (Event.editTranslation "hello")).1.result.bind
      (fun x => x.translatedText)) = none :=
  edit_translation_unset_noop completedState resultSample "hello" rfl rfl

/-- Claim C6: in every reachable state whose status is `RECORDED`
(`Captured`), the pending audio object is present and the result is `none`;
this covers both transitions into `RECORDED` (stop capture, audio file
upload). -/
theorem captured_requires_audio_no_result (s : ComponentState) (h : Reachable s)
    (hst : s.status = .RECORDED) :
    s.pendingBlob.isSome = true ∧ s.result = none :=
  (inv_reachable s h).1 hst

/-- Witness for C6: the concrete reachable state obtained by starting and
then stopping a capture. -/
theorem captured_requires_audio_no_result_witness :
    ((step (step initialState (Event.startCapture (Except.ok ()))).1
        Event.stopCapture).1.pendingBlob.isSome = true ∧
     (step (step initialState (Event.startCapture (Except.ok ()))).1
        Event.stopCapture).1.result = none) :=
  captured_requires_audio_no_result _
    (Reachable.next _ Event.stopCapture
      (Reachable.next _ (Event.startCapture (Except.ok ())) Reachable.init))
    (by rfl)

/-- Claim C7: the engine wrapper fails exactly when the provider call errors,
and an empty (or absent) provider text yields the non-empty sentinel message
for both `transcribeAmharic` and `translateToEnglish`. -/
theorem engine_fails_iff_provider_fails (p q : Except Unit (Option String)) :
    ((∃ e, transcribeAmharic p = Except.error e) ↔ ∃ u, p = Except.error u) ∧
    ((∃ e, translateToEnglish q = Except.error e) ↔ ∃ u, q = Except.error u) ∧
    transcribeAmharic (Except.ok none) = Except.ok "No transcription available." ∧
    transcribeAmharic (Except.ok (some "")) = Except.ok "No transcription available." ∧
    translateToEnglish (Except.ok none) = Except.ok "Translation failed." ∧
    translateToEnglish (Except.ok (some "")) = Except.ok "Translation failed." ∧
    "No transcription available." ≠ "" ∧ "Translation failed." ≠ "" := by
  refine ⟨?_, ?_, rfl, rfl, rfl, rfl, by decide, by decide⟩
  · cases p <;> simp [transcribeAmharic]
  · cases q <;> simp [translateToEnglish]

/-- Claim C8: when microphone acquisition fails, `startRecording` ends in
`IDLE` with the device-unavailable error message and no pending audio
object. -/
theorem capture_failure_returns_idle (s : ComponentState) :
    (startRecording (Except.error ()) s).status = .IDLE ∧
    (startRecording (Except.error ()) s).error =
      some "Microphone access denied or not available." ∧
    (startRecording (Except.error ()) s).pendingBlob = none := by
  simp [startRecording]

/-- Counterexample for C9 as stated: a result whose `translatedText` is set
but empty (reachable by editing the translation down to the empty string) is
exported without the translation section, unlike what the claim's "when
translatedText is set" wording predicts. -/
theorem export_translation_header_counterexample :
    transcriptionContent emptyTranslationResult ≠
      transcriptionContentClaimed emptyTranslationResult := by
  decide

/-- Claim C9 (amended): the text payload is the transcript under its header
followed, when `translatedText` is set and non-empty, by the translation
under the second header; the text filename is the fixed prefix, the epoch
milliseconds and `.txt`; the audio filename is its fixed prefix, the epoch
milliseconds and the extension derived from the MIME subtype with the `webm`
fallback when absent. -/
theorem export_artifacts_formats (r : TranscriptionResult) (now : Nat) (mime : String) :
    transcriptionContent r = transcriptionContentAmended r ∧
    transcriptionFilename now = "amharic-transcription-" ++ toString now ++ ".txt" ∧
    audioFilename now mime = "amharic-audio-" ++ toString now ++ "." ++ audioExtensionSpec mime := by
  refine ⟨?_, rfl, ?_⟩
  · unfold transcriptionContent transcriptionContentAmended
    cases r.translatedText with
    | none => simp
    | some tt =>
      by_cases h : tt = "" <;> simp [h, String.append_assoc]
  · unfold audioFilename audioExtension audioExtensionSpec mimeSubtypeSpec
    cases hg : (mime.splitOn "/").get? 1 with
    | none => rfl
    | some ext => by_cases he : ext = "" <;> simp [he]

/-- Claim C10: transcribe without a pending blob, and translate or save
without a result, are complete no-ops — the state is returned unchanged and
no engine or store call is recorded. -/
theorem missing_prerequisites_noop (s : ComponentState)
    (p q : Except Unit (Option String)) (now : Nat) (user : Option String)
    (store : Except String Unit) :
    (s.pendingBlob = none → handleTranscribeNow p now s = (s, [])) ∧
    (s.result = none →
      handleTranslateNow q s = (s, []) ∧ handleSaveToCloud user store s = (s, [])) := by
  constructor
  · intro h; simp [handleTranscribeNow, h]
  · intro h
    exact ⟨by simp [handleTranslateNow, h], by simp [handleSaveToCloud, h]⟩

/-- Witness for C10 at the initial state. -/
theorem missing_prerequisites_noop_witness :
    handleTranscribeNow (Except.ok (some "t")) 0 initialState = (initialState, []) ∧
    handleTranslateNow (Except.ok (some "t")) initialState = (initialState, []) ∧
    handleSaveToCloud (some "uid") (Except.ok ()) initialState = (initialState, []) := by
  have h := missing_prerequisites_noop initialState (Except.ok (some "t"))
    (Except.ok (some "t")) 0 (some "uid") (Except.ok ())
  exact ⟨h.1 rfl, (h.2 rfl).1, (h.2 rfl).2⟩

end AmharicFirst
